import Mathlib

/-!
Formal model of the logging route service (`main.go`): a single-hop
forwarding proxy that rewrites each inbound request to the destination
named in the `X-Cf-Forwarded-Url` header, applies an allow-list check to
the first entry of the `X-Forwarded-For` chain, buffers request and
response bodies so they can be both logged and replayed, and optionally
injects an artificial delay configured through the
`ROUTE_SERVICE_SLEEP_MILLI` environment variable.

The Go code is embedded shallowly: byte strings become `String`, one-shot
body streams become `BodyStream` values with an explicit read position,
`log.Fatalln` becomes the `Fatal` error type, observable side effects
(log lines, the delay, the outbound network call) are recorded in an
event trace, and the underlying network transport is an abstract function
`Request → Except String Response`.
-/

namespace RouteService

instance {ε α : Type} [DecidableEq ε] [DecidableEq α] : DecidableEq (Except ε α) := fun x y =>
  match x, y with
  | .error a, .error b =>
    if h : a = b then isTrue (by rw [h]) else isFalse (by simp [h])
  | .ok a, .ok b =>
    if h : a = b then isTrue (by rw [h]) else isFalse (by simp [h])
  | .error _, .ok _ => isFalse (by simp)
  | .ok _, .error _ => isFalse (by simp)

/-! ## String helpers modelling the Go standard library -/

/-- ASCII lower-casing of a single character, as Go `strings.ToLower`
behaves on the ASCII scheme characters this service can encounter. -/
def lowerChar (c : Char) : Char :=
  if 'A' ≤ c && c ≤ 'Z' then Char.ofNat (c.toNat + 32) else c

/-- Whether `c` lies in the inclusive character range `lo`–`hi`. -/
def charIn (lo hi c : Char) : Bool :=
  lo ≤ c && c ≤ hi

def isAlpha (c : Char) : Bool :=
  charIn 'a' 'z' c || charIn 'A' 'Z' c

def isDigit (c : Char) : Bool :=
  charIn '0' '9' c

/-- ASCII control characters, which Go `net/url.Parse` rejects anywhere
in a URL. -/
def isCTL (c : Char) : Bool :=
  c.toNat < 0x20 || c.toNat == 0x7f

def listStartsWith : List Char → List Char → Bool
  | _, [] => true
  | [], _ :: _ => false
  | a :: as, b :: bs => a == b && listStartsWith as bs

/-- Characters strictly before the first occurrence of `c`. -/
def takeUntilChar (c : Char) : List Char → List Char
  | [] => []
  | a :: as => if a == c then [] else a :: takeUntilChar c as

/-- The suffix starting at the first occurrence of `c` (inclusive);
`[]` when `c` does not occur. -/
def dropUntilChar (c : Char) : List Char → List Char
  | [] => []
  | a :: as => if a == c then a :: as else dropUntilChar c as

/-- Characters strictly after the first occurrence of `c`;
`[]` when `c` does not occur. -/
def afterChar (c : Char) : List Char → List Char
  | [] => []
  | a :: as => if a == c then as else afterChar c as

/-- Splitting worker: `fuel` bounds the number of steps, one unit per
consumed character is enough, so callers pass the input length plus one. -/
def splitOnListAux (sep : List Char) : Nat → List Char → List (List Char)
  | _, [] => [[]]
  | 0, l => [l]
  | Nat.succ fuel, c :: cs =>
    if listStartsWith (c :: cs) sep then
      [] :: splitOnListAux sep fuel ((c :: cs).drop sep.length)
    else
      match splitOnListAux sep fuel cs with
      | [] => [[c]]
      | seg :: rest => (c :: seg) :: rest

/-- Model of Go `strings.Split` for a non-empty separator: splits around
every non-overlapping occurrence, an empty input yields `[""]`, so the
result is never the empty list. -/
def goSplit (s sep : String) : List String :=
  (splitOnListAux sep.toList (s.toList.length + 1) s.toList).map
    (fun l => String.mk l)

/-! ## Model of Go `strconv.ParseInt(s, 0, 64)` -/

/-- The value of `c` as a digit in bases up to 36, as Go's `strconv`
lower-table: `0`-`9` map to 0-9, letters (either case) to 10-35. The
offsets 48, 87 and 55 are the code points of `0`, `a` and `A` shifted so
that letters start at value 10. -/
def digitVal (c : Char) : Option Nat :=
  if charIn '0' '9' c then some (c.toNat - 48)
  else if charIn 'a' 'z' c then some (c.toNat - 87)
  else if charIn 'A' 'Z' c then some (c.toNat - 55)
  else none

def parseDigitsAux (base : Nat) (acc : Nat) : List Char → Option Nat
  | [] => some acc
  | c :: r =>
    match digitVal c with
    | some d => if d < base then parseDigitsAux base (acc * base + d) r else none
    | none => none

def parseDigits (base : Nat) : List Char → Option Nat
  | [] => none
  | l => parseDigitsAux base 0 l

/-- Model of Go `strconv.ParseInt(s, 0, 64)`: optional sign, then with
base 0 a prefix selects the base (`0x`/`0X` hex, `0o`/`0O` octal,
`0b`/`0B` binary, any other leading `0` octal), then one or more digits
of that base. Underscore digit separators and the 64-bit range check are
omitted; no claim depends on them. Failures carry Go's
"invalid syntax" message. -/
def goParseInt (s : String) : Except String Int :=
  match s.toList with
  | [] => .error "invalid syntax"
  | cs =>
    let signed : Bool × List Char :=
      match cs with
      | '+' :: r => (false, r)
      | '-' :: r => (true, r)
      | r => (false, r)
    let based : Nat × List Char :=
      match signed.2 with
      | '0' :: 'x' :: r => (16, r)
      | '0' :: 'X' :: r => (16, r)
      | '0' :: 'o' :: r => (8, r)
      | '0' :: 'O' :: r => (8, r)
      | '0' :: 'b' :: r => (2, r)
      | '0' :: 'B' :: r => (2, r)
      | ['0'] => (10, ['0'])
      | '0' :: r => (8, r)
      | r => (10, r)
    match parseDigits based.1 based.2 with
    | none => .error "invalid syntax"
    | some n => .ok (if signed.1 then -(n : Int) else (n : Int))

/-! ## Model of Go `net/url.Parse` -/

/-- The fields of a parsed URL that this service reads: scheme, host,
path and raw query. Go's `url.URL` has more fields (user info, fragment,
opaque part); the service never consults them. -/
structure URL where
  scheme : String
  host : String
  path : String
  query : String
deriving DecidableEq

/-- The value of a hexadecimal digit; offsets as in `digitVal`. -/
def hexDigitVal (c : Char) : Option Nat :=
  if charIn '0' '9' c then some (c.toNat - 48)
  else if charIn 'a' 'f' c then some (c.toNat - 87)
  else if charIn 'A' 'F' c then some (c.toNat - 55)
  else none

/-- Percent-decoding as Go's `unescape`: every `%` must be followed by
two hex digits, otherwise the whole parse fails. Decoded bytes are kept
as characters. -/
def unescapeChars : List Char → Option (List Char)
  | [] => some []
  | '%' :: a :: b :: rest =>
    match hexDigitVal a, hexDigitVal b with
    | some x, some y => (unescapeChars rest).map (fun t => Char.ofNat (16 * x + y) :: t)
    | _, _ => none
  | '%' :: _ => none
  | c :: rest => (unescapeChars rest).map (fun t => c :: t)

/-- Scheme detection as Go's `getScheme`: scan for a `:` preceded by an
alphabetic character followed by alphanumerics or `+`, `-`, `.`.
A leading `:` is the "missing protocol scheme" error; any other
non-scheme character before a `:` means the URL has no scheme and is
returned whole. The detected scheme is lower-cased. -/
def getSchemeLoop (full : List Char) : List Char → List Char → Except String (List Char × List Char)
  | _, [] => .ok ([], full)
  | seen, c :: rest =>
    if isAlpha c then getSchemeLoop full (seen ++ [c]) rest
    else if isDigit c || c == '+' || c == '-' || c == '.' then
      if seen.isEmpty then .ok ([], full)
      else getSchemeLoop full (seen ++ [c]) rest
    else if c == ':' then
      if seen.isEmpty then .error "missing protocol scheme"
      else .ok (seen.map lowerChar, rest)
    else .ok ([], full)

/-- Model of Go `net/url.Parse`, restricted to the URL shapes this
service receives: optional scheme, optional `//host` authority, path,
`?query`, and a `#fragment` that is cut off and discarded. As in Go, a
control character anywhere is a parse error, the empty string parses to
the empty relative URL, and an invalid percent escape in the authority
or path is a parse error, while the raw query is stored unvalidated.
User info, IPv6 literals, port validation and opaque URLs (a scheme
followed by a non-`/` part, such as `mailto:x`) are not modelled; no
claim depends on them. -/
def parseURL (raw : String) : Except String URL :=
  let cs := raw.toList
  if cs.any isCTL then .error "net/url: invalid control character in URL"
  else
    let noFrag := takeUntilChar '#' cs
    match getSchemeLoop noFrag [] noFrag with
    | .error e => .error e
    | .ok (scheme, rest) =>
      let beforeQ := takeUntilChar '?' rest
      let query := afterChar '?' rest
      if listStartsWith beforeQ ['/', '/'] then
        let afterSlashes := beforeQ.drop 2
        let host := takeUntilChar '/' afterSlashes
        let path := dropUntilChar '/' afterSlashes
        match unescapeChars host, unescapeChars path with
        | some h, some p =>
          .ok ⟨String.mk scheme, String.mk h, String.mk p, String.mk query⟩
        | _, _ => .error "invalid URL escape"
      else
        match unescapeChars beforeQ with
        | some p => .ok ⟨String.mk scheme, "", String.mk p, String.mk query⟩
        | none => .error "invalid URL escape"

example : parseURL "" = .ok ⟨"", "", "", ""⟩ := by decide
example : parseURL "http://backend.internal/path?x=1" =
    .ok ⟨"http", "backend.internal", "/path", "x=1"⟩ := by decide
example : parseURL "\t" = .error "net/url: invalid control character in URL" := by decide
example : goSplit "1.2.3.4, 5.6.7.8" ", " = ["1.2.3.4", "5.6.7.8"] := by decide
example : goSplit "" ", " = [""] := by decide
example : goSplit "1.2.3.4,5.6.7.8" ", " = ["1.2.3.4,5.6.7.8"] := by decide
example : goParseInt "abc" = .error "invalid syntax" := by decide
example : goParseInt "-50" = .ok (-50) := by decide
example : goParseInt "0" = .ok 0 := by decide
example : goParseInt "08" = .error "invalid syntax" := by decide

/-! ## HTTP data model -/

/-- The header names from `main.go`. -/
def FORWARDED_FOR_HEADER : String := "X-Forwarded-For"

def CF_FORWARDED_URL_HEADER : String := "X-Cf-Forwarded-Url"

def CF_PROXY_SIGNATURE_HEADER : String := "X-Cf-Proxy-Signature"

/-- Headers as an association list. Go's `Header.Get` canonicalises the
key before looking it up; the model assumes keys are stored in canonical
MIME form, which is how every header in this development is written. -/
def headerGet (h : List (String × String)) (key : String) : String :=
  match h.find? (fun p => p.1 == key) with
  | some p => p.2
  | none => ""

/-- A one-shot body stream: the underlying bytes plus the read position.
`ioutil.ReadAll` consumes a stream to its end; `ioutil.NopCloser` over a
`bytes.Buffer` yields a fresh stream at position `0`. -/
structure BodyStream where
  data : String
  pos : Nat
deriving DecidableEq

/-- A fresh stream over `s`, positioned at the start, as produced by
`ioutil.NopCloser(bytes.NewBuffer(...))`. -/
def freshStream (s : String) : BodyStream := ⟨s, 0⟩

/-- Reading a stream to its end: yields the remaining bytes and the
exhausted stream. -/
def BodyStream.readAll (b : BodyStream) : String × BodyStream :=
  (String.mk (b.data.toList.drop b.pos), { b with pos := b.data.toList.length })

structure Request where
  method : String
  url : URL
  host : String
  header : List (String × String)
  body : Option BodyStream
deriving DecidableEq

structure Response where
  statusCode : Nat
  header : List (String × String)
  body : BodyStream
deriving DecidableEq

/-! ## Observable events

Each externally observable action of one request cycle is recorded, in
program order: the request log line (with the three forwarding headers
and the buffered body), the artificial delay, the URL rewrite, the
remote-address log line, the denial, the forwarding log line, the call
into the underlying transport, and the response log line. -/

inductive Event where
  | logRequest (forwardedFOR forwardedURL sigHeader body : String)
  | delay (milli : Int)
  | rewrite (u : URL)
  | remoteAddr (ip : String)
  | deny (ip : String)
  | forwarding (u : URL)
  | outboundCall
  | logResponse (header : List (String × String)) (body : String)
deriving DecidableEq

inductive EKind where
  | logRequest
  | delay
  | rewrite
  | remoteAddr
  | deny
  | forwarding
  | outboundCall
  | logResponse
deriving DecidableEq, BEq

def Event.kind : Event → EKind
  | .logRequest _ _ _ _ => .logRequest
  | .delay _ => .delay
  | .rewrite _ => .rewrite
  | .remoteAddr _ => .remoteAddr
  | .deny _ => .deny
  | .forwarding _ => .forwarding
  | .outboundCall => .outboundCall
  | .logResponse _ _ => .logResponse

def idxOfKind (k : EKind) : List EKind → Nat
  | [] => 0
  | a :: as => if a == k then 0 else idxOfKind k as + 1

/-- `beforeIn k1 k2 ks` holds when every trace containing an event of
kind `k2` also contains an earlier event of kind `k1` (first
occurrences compared). -/
def beforeIn (k1 k2 : EKind) (ks : List EKind) : Bool :=
  !(ks.contains k2) || (ks.contains k1 && decide (idxOfKind k1 ks < idxOfKind k2 ks))

/-- `beforeWhenBoth k1 k2 ks` holds when, in every trace containing both
kinds, the first `k1` event comes before the first `k2` event. -/
def beforeWhenBoth (k1 k2 : EKind) (ks : List EKind) : Bool :=
  !(ks.contains k1 && ks.contains k2) || decide (idxOfKind k1 ks < idxOfKind k2 ks)

/-! ## The service core -/

/-- The environment slice the core reads during a request:
`ROUTE_SERVICE_SLEEP_MILLI`. -/
structure Env where
  routeServiceSleepMilli : String

/-- `log.Fatalln` outcomes inside a request cycle. -/
inductive Fatal where
  | sleepError (msg : String)
  | urlParseError (msg : String)
deriving DecidableEq

/-- The `sleep` function from `main.go`: reads
`ROUTE_SERVICE_SLEEP_MILLI`; when non-empty, parses it with
`strconv.ParseInt(s, 0, 64)` and on success sleeps that many
milliseconds (recorded as a `delay` event). An empty value does
nothing; a parse failure is returned as an error. -/
def sleep (env : Env) : Except String (List Event) :=
  let sleepMilliString := env.routeServiceSleepMilli
  if sleepMilliString ≠ "" then
    match goParseInt sleepMilliString with
    | .error err => .error err
    | .ok sleepMilli => .ok [Event.delay sleepMilli]
  else
    .ok []

/-- The `contains` function from `main.go`: linear scan with `==`. -/
def contains : List String → String → Bool
  | [], _ => false
  | a :: s, e => if a == e then true else contains s e

/-- The claimed caller address: `strings.Split(forwardedFOR, ", ")[0]`.
Go's `Split` with a non-empty separator never returns an empty slice,
so index `0` is total; the model uses `headD ""` (`goSplit` never
returns `[]`). -/
def remoteIP (forwardedFOR : String) : String :=
  (goSplit forwardedFOR ", ").headD ""

/-- The `Director` closure from `NewProxy` in `main.go`: reads the three
forwarding headers; buffers the body (when present) and replaces it with
a fresh stream over the bytes read; logs the request; sleeps; parses
`forwardedURL`; rewrites the request's URL and host. The two
`log.Fatalln` sites become `Fatal` errors; the trace records whatever
was observable before the failure. -/
def director (env : Env) (req : Request) : Except Fatal Request × List Event :=
  let forwardedFOR := headerGet req.header FORWARDED_FOR_HEADER
  let forwardedURL := headerGet req.header CF_FORWARDED_URL_HEADER
  let sigHeader := headerGet req.header CF_PROXY_SIGNATURE_HEADER
  let buffered : String × Request :=
    match req.body with
    | none => ("", req)
    | some b =>
      let r := b.readAll
      (r.1, { req with body := some (freshStream r.1) })
  let ev1 : List Event := [Event.logRequest forwardedFOR forwardedURL sigHeader buffered.1]
  match sleep env with
  | .error e => (.error (.sleepError e), ev1)
  | .ok sleepEvs =>
    match parseURL forwardedURL with
    | .error e => (.error (.urlParseError e), ev1 ++ sleepEvs)
    | .ok u =>
      (.ok { buffered.2 with url := u, host := u.host },
       ev1 ++ sleepEvs ++ [Event.rewrite u])

/-- The transport wrapper from `main.go`. The underlying network
transport (`http.Transport` with the configured TLS policy) is abstract:
a function from requests to a response or a transport error. -/
structure LoggingRoundTripper where
  transport : Request → Except String Response
  limit : List String

/-- `LoggingRoundTripper.RoundTrip` from `main.go`: reads the
`X-Forwarded-For` header of the (already directed) request, takes the
first `", "`-separated entry, and when the allow-list is non-empty and
does not contain it, returns the synthetic 403 response without calling
the underlying transport. Otherwise it delegates to the transport,
propagates transport errors unchanged, and on success buffers the
response body, logs it, and re-attaches a fresh stream. -/
def LoggingRoundTripper.RoundTrip (lrt : LoggingRoundTripper) (request : Request) :
    Except String Response × List Event :=
  let forwardedFOR := headerGet request.header FORWARDED_FOR_HEADER
  let rip := remoteIP forwardedFOR
  if decide (0 < lrt.limit.length) && !contains lrt.limit rip then
    (.ok { statusCode := 403, header := [], body := freshStream "Forbidden" },
     [Event.remoteAddr rip, Event.deny rip])
  else
    match lrt.transport request with
    | .error e =>
      (.error e, [Event.remoteAddr rip, Event.forwarding request.url, Event.outboundCall])
    | .ok res =>
      let r := res.body.readAll
      (.ok { res with body := freshStream r.1 },
       [Event.remoteAddr rip, Event.forwarding request.url, Event.outboundCall,
        Event.logResponse res.header r.1])

/-- One request cycle of the reverse proxy: the director stage, then,
when the director did not abort the process, the transport stage.
The left error is a `Fatal` abort inside the director, the inner
`Except String` is a propagated transport error. -/
def proxyCycle (lrt : LoggingRoundTripper) (env : Env) (req : Request) :
    Except Fatal (Except String Response) × List Event :=
  match director env req with
  | (.error f, tr) => (.error f, tr)
  | (.ok outreq, tr) =>
    let r := lrt.RoundTrip outreq
    (.ok r.1, tr ++ r.2)

/-- The kinds of the events of one full request cycle, in order. -/
def cycleKinds (lrt : LoggingRoundTripper) (env : Env) (req : Request) : List EKind :=
  ((proxyCycle lrt env req).2).map Event.kind

/-! ## Concrete fixtures used to instantiate the theorems -/

def emptyURL : URL := ⟨"", "", "", ""⟩

/-- An abstract upstream that refuses every connection. -/
def tRefused : Request → Except String Response := fun _ => .error "connection refused"

def upstreamRes : Response :=
  { statusCode := 200
    header := [("Content-Type", "text/plain")]
    body := freshStream "hello" }

/-- An abstract upstream that answers every request with `upstreamRes`. -/
def tUpstream : Request → Except String Response := fun _ => .ok upstreamRes

def baseReq (hs : List (String × String)) (b : Option BodyStream) : Request :=
  { method := "GET", url := emptyURL, host := "", header := hs, body := b }

def reqPlain : Request := baseReq [] none

def envNoSleep : Env := { routeServiceSleepMilli := "" }

def lrtC1 : LoggingRoundTripper := ⟨tRefused, ["10.0.0.1"]⟩

def reqC1 : Request := baseReq [(FORWARDED_FOR_HEADER, "10.0.0.2")] none

def reqC3 : Request := baseReq [(FORWARDED_FOR_HEADER, "1.2.3.4, 5.6.7.8")] none

def reqC9 : Request := baseReq [(FORWARDED_FOR_HEADER, "1.2.3.4,5.6.7.8")] none

def urlBackend : URL := ⟨"http", "backend.internal", "/path", "x=1"⟩

def reqBody : Request :=
  baseReq [(CF_FORWARDED_URL_HEADER, "http://backend.internal/path?x=1")]
    (some (freshStream "payload"))

/-- The request `reqBody` after the director stage. -/
def reqBodyDirected : Request :=
  { method := "GET"
    url := urlBackend
    host := "backend.internal"
    header := [(CF_FORWARDED_URL_HEADER, "http://backend.internal/path?x=1")]
    body := some (freshStream "payload") }

/-- The trace the director leaves for `reqBody` with no delay configured. -/
def trBody : List Event :=
  [Event.logRequest "" "http://backend.internal/path?x=1" "" "payload",
   Event.rewrite urlBackend]

def reqBadURL : Request := baseReq [(CF_FORWARDED_URL_HEADER, "%zz")] none

def lrtOpen : LoggingRoundTripper := ⟨tUpstream, []⟩

def lrtRefusedOpen : LoggingRoundTripper := ⟨tRefused, []⟩

/-! ## Helper lemmas -/

theorem contains_iff_mem (l : List String) (e : String) :
    contains l e = true ↔ e ∈ l := by
  induction l with
  | nil => simp [contains]
  | cons a s ih =>
    by_cases h : a = e
    · simp [contains, h]
    · simp [contains, h, ih]
      intro hh
      exact absurd hh.symm h

theorem sleep_ok_cases (env : Env) (evs : List Event) (h : sleep env = .ok evs) :
    evs = [] ∨ ∃ n, evs = [Event.delay n] := by
  unfold sleep at h
  by_cases hs : env.routeServiceSleepMilli = ""
  · simp [hs] at h
    exact Or.inl h
  · simp [hs] at h
    cases hp : goParseInt env.routeServiceSleepMilli with
    | error e => rw [hp] at h; exact absurd h (by simp)
    | ok n =>
      rw [hp] at h
      simp at h
      exact Or.inr ⟨n, h.symm⟩

/-- The deny branch of `RoundTrip`, fully evaluated. -/
theorem roundTrip_denied (lrt : LoggingRoundTripper) (req : Request)
    (h : (decide (0 < lrt.limit.length) &&
          !contains lrt.limit (remoteIP (headerGet req.header FORWARDED_FOR_HEADER))) = true) :
    lrt.RoundTrip req =
      (.ok { statusCode := 403, header := [], body := freshStream "Forbidden" },
       [Event.remoteAddr (remoteIP (headerGet req.header FORWARDED_FOR_HEADER)),
        Event.deny (remoteIP (headerGet req.header FORWARDED_FOR_HEADER))]) := by
  unfold LoggingRoundTripper.RoundTrip
  simp [h]

/-- A non-empty allow-list that lacks the claimed address produces the
synthetic 403 response and never reaches the transport. -/
theorem roundTrip_denied_of (lrt : LoggingRoundTripper) (req : Request)
    (h1 : lrt.limit ≠ [])
    (h2 : contains lrt.limit (remoteIP (headerGet req.header FORWARDED_FOR_HEADER)) = false) :
    (lrt.RoundTrip req).1 =
      .ok { statusCode := 403, header := [], body := freshStream "Forbidden" } ∧
    Event.outboundCall ∉ (lrt.RoundTrip req).2 := by
  have hc : (decide (0 < lrt.limit.length) &&
      !contains lrt.limit (remoteIP (headerGet req.header FORWARDED_FOR_HEADER))) = true := by
    simp [h2]
    exact List.length_pos.mpr h1
  rw [roundTrip_denied lrt req hc]
  exact ⟨rfl, by simp⟩

/-- The allow branch of `RoundTrip` with a successful upstream response,
fully evaluated. -/
theorem roundTrip_allowed_ok (lrt : LoggingRoundTripper) (req : Request) (res : Response)
    (ht : lrt.transport req = .ok res)
    (hc : (decide (0 < lrt.limit.length) &&
           !contains lrt.limit (remoteIP (headerGet req.header FORWARDED_FOR_HEADER))) = false) :
    lrt.RoundTrip req =
      (.ok { res with body := freshStream ((res.body.readAll).1) },
       [Event.remoteAddr (remoteIP (headerGet req.header FORWARDED_FOR_HEADER)),
        Event.forwarding req.url, Event.outboundCall,
        Event.logResponse res.header ((res.body.readAll).1)]) := by
  unfold LoggingRoundTripper.RoundTrip
  simp [hc, ht]

/-- Shape of the transport-stage trace: a denial, a failed outbound call,
or a successful outbound call with the response logged. -/
theorem roundTrip_kinds_cases (lrt : LoggingRoundTripper) (req : Request) :
    (lrt.RoundTrip req).2.map Event.kind ∈ ([
      [EKind.remoteAddr, EKind.deny],
      [EKind.remoteAddr, EKind.forwarding, EKind.outboundCall],
      [EKind.remoteAddr, EKind.forwarding, EKind.outboundCall, EKind.logResponse]]
      : List (List EKind)) := by
  unfold LoggingRoundTripper.RoundTrip
  cases hc : (decide (0 < lrt.limit.length) &&
      !contains lrt.limit (remoteIP (headerGet req.header FORWARDED_FOR_HEADER)))
  · cases h : lrt.transport req <;> simp [hc, h, Event.kind]
  · simp [hc, Event.kind]

/-- Shape of the director stage: a fatal sleep-parse error after the
request log line, a fatal URL-parse error after the log line and the
optional delay, or success with the rewrite recorded last. -/
theorem director_cases (env : Env) (req : Request) :
    (∃ e a b c d, director env req = (.error (.sleepError e), [Event.logRequest a b c d]))
    ∨ (∃ e a b c d evs, director env req =
          (.error (.urlParseError e), Event.logRequest a b c d :: evs) ∧
        (evs = [] ∨ ∃ n, evs = [Event.delay n]))
    ∨ (∃ req' a b c d evs u, director env req =
          (.ok req', Event.logRequest a b c d :: (evs ++ [Event.rewrite u])) ∧
        (evs = [] ∨ ∃ n, evs = [Event.delay n])) := by
  simp only [director]
  cases hb : req.body with
  | none =>
    cases hs : sleep env with
    | error e => exact Or.inl ⟨e, _, _, _, _, rfl⟩
    | ok evs =>
      have hev := sleep_ok_cases env evs hs
      cases hp : parseURL (headerGet req.header CF_FORWARDED_URL_HEADER) with
      | error e => exact Or.inr (Or.inl ⟨e, _, _, _, _, evs, rfl, hev⟩)
      | ok u => exact Or.inr (Or.inr ⟨_, _, _, _, _, evs, u, rfl, hev⟩)
  | some b0 =>
    cases hs : sleep env with
    | error e => exact Or.inl ⟨e, _, _, _, _, rfl⟩
    | ok evs =>
      have hev := sleep_ok_cases env evs hs
      cases hp : parseURL (headerGet req.header CF_FORWARDED_URL_HEADER) with
      | error e => exact Or.inr (Or.inl ⟨e, _, _, _, _, evs, rfl, hev⟩)
      | ok u => exact Or.inr (Or.inr ⟨_, _, _, _, _, evs, u, rfl, hev⟩)

/-- When the delay configuration is accepted and the forwarded URL
parses, the director succeeds; the directed request keeps the method and
headers, carries the parsed URL and its host, and the body is replaced
by a fresh buffer over the bytes read for logging, which also appear in
the request log event. -/
theorem director_ok_of (env : Env) (req : Request) (evs : List Event) (u : URL)
    (hs : sleep env = .ok evs)
    (hp : parseURL (headerGet req.header CF_FORWARDED_URL_HEADER) = .ok u) :
    ∃ req' tr, director env req = (.ok req', tr) ∧
      req'.method = req.method ∧ req'.header = req.header ∧
      req'.url = u ∧ req'.host = u.host ∧
      (req.body = none → req'.body = none) ∧
      (∀ b, req.body = some b → req'.body = some (freshStream ((b.readAll).1))) ∧
      (∀ b, req.body = some b →
        Event.logRequest (headerGet req.header FORWARDED_FOR_HEADER)
          (headerGet req.header CF_FORWARDED_URL_HEADER)
          (headerGet req.header CF_PROXY_SIGNATURE_HEADER) ((b.readAll).1) ∈ tr) := by
  simp only [director]
  rw [hs, hp]
  cases hb : req.body with
  | none =>
    refine ⟨_, _, rfl, rfl, rfl, rfl, rfl, fun _ => hb, ?_, ?_⟩
    · intro b h
      exact absurd h (by simp)
    · intro b h
      exact absurd h (by simp)
  | some b0 =>
    refine ⟨_, _, rfl, rfl, rfl, rfl, rfl, (by simp), ?_, ?_⟩
    · intro b h
      rw [Option.some_inj] at h
      subst h
      rfl
    · intro b h
      rw [Option.some_inj] at h
      subst h
      simp

/-- The uniqueness direction: a stated director success equals the shape
given by `director_ok_of`. -/
theorem director_ok_inv (env : Env) (req : Request) (req' : Request) (tr : List Event)
    (hd : director env req = (.ok req', tr)) :
    ∃ evs u, sleep env = .ok evs ∧
      parseURL (headerGet req.header CF_FORWARDED_URL_HEADER) = .ok u ∧
      req'.method = req.method ∧ req'.header = req.header ∧
      req'.url = u ∧ req'.host = u.host ∧
      (∀ b, req.body = some b → req'.body = some (freshStream ((b.readAll).1))) ∧
      (∀ b, req.body = some b →
        Event.logRequest (headerGet req.header FORWARDED_FOR_HEADER)
          (headerGet req.header CF_FORWARDED_URL_HEADER)
          (headerGet req.header CF_PROXY_SIGNATURE_HEADER) ((b.readAll).1) ∈ tr) := by
  cases hs : sleep env with
  | error e =>
    simp only [director] at hd
    rw [hs] at hd
    simp at hd
  | ok evs =>
    cases hp : parseURL (headerGet req.header CF_FORWARDED_URL_HEADER) with
    | error e =>
      simp only [director] at hd
      rw [hs, hp] at hd
      simp at hd
    | ok u =>
      obtain ⟨r2, t2, hd2, hm, hh, hu, hho, _, hbody, hlog⟩ := director_ok_of env req evs u hs hp
      rw [hd] at hd2
      have hpair : req' = r2 ∧ tr = t2 := by
        have h1 := congrArg Prod.fst hd2
        have h2 := congrArg Prod.snd hd2
        simp at h1 h2
        exact ⟨h1, h2⟩
      obtain ⟨hr, ht⟩ := hpair
      subst hr
      subst ht
      exact ⟨evs, u, rfl, rfl, hm, hh, hu, hho, hbody, hlog⟩

/-- The event-kind sequences a full request cycle can produce. -/
theorem cycleKinds_cases (lrt : LoggingRoundTripper) (env : Env) (req : Request) :
    cycleKinds lrt env req ∈ ([
      [EKind.logRequest],
      [EKind.logRequest, EKind.delay],
      [EKind.logRequest, EKind.rewrite, EKind.remoteAddr, EKind.deny],
      [EKind.logRequest, EKind.delay, EKind.rewrite, EKind.remoteAddr, EKind.deny],
      [EKind.logRequest, EKind.rewrite, EKind.remoteAddr, EKind.forwarding,
        EKind.outboundCall],
      [EKind.logRequest, EKind.delay, EKind.rewrite, EKind.remoteAddr, EKind.forwarding,
        EKind.outboundCall],
      [EKind.logRequest, EKind.rewrite, EKind.remoteAddr, EKind.forwarding,
        EKind.outboundCall, EKind.logResponse],
      [EKind.logRequest, EKind.delay, EKind.rewrite, EKind.remoteAddr, EKind.forwarding,
        EKind.outboundCall, EKind.logResponse]] : List (List EKind)) := by
  unfold cycleKinds proxyCycle
  rcases director_cases env req with ⟨e, a, b, c, d, hd⟩ | ⟨e, a, b, c, d, evs, hd, hev⟩ |
    ⟨req', a, b, c, d, evs, u, hd, hev⟩
  · rw [hd]
    simp [Event.kind]
  · rw [hd]
    rcases hev with rfl | ⟨n, rfl⟩ <;> simp [Event.kind]
  · rw [hd]
    have hr := roundTrip_kinds_cases lrt req'
    simp at hr
    rcases hev with rfl | ⟨n, rfl⟩ <;> rcases hr with hr | hr | hr <;>
        simp [hr, Event.kind]

/-! ## The claims -/

/-- C1: whenever the access decision is deny (the allow-list is non-empty
and the claimed address is not a member), `RoundTrip` returns status 403
with body exactly "Forbidden" and no headers, the underlying transport is
not invoked, and no error is returned. -/
theorem C1_deny_forbidden_without_transport
    (lrt : LoggingRoundTripper) (req : Request)
    (h1 : lrt.limit ≠ [])
    (h2 : contains lrt.limit (remoteIP (headerGet req.header FORWARDED_FOR_HEADER)) = false) :
    (lrt.RoundTrip req).1 =
      .ok { statusCode := 403, header := [], body := freshStream "Forbidden" } ∧
    Event.outboundCall ∉ (lrt.RoundTrip req).2 :=
  roundTrip_denied_of lrt req h1 h2

theorem C1_witness :
    lrtC1.limit ≠ [] ∧
    contains lrtC1.limit (remoteIP (headerGet reqC1.header FORWARDED_FOR_HEADER)) = false ∧
    ((lrtC1.RoundTrip reqC1).1 =
       .ok { statusCode := 403, header := [], body := freshStream "Forbidden" } ∧
     Event.outboundCall ∉ (lrtC1.RoundTrip reqC1).2) :=
  ⟨by decide, by decide,
   C1_deny_forbidden_without_transport lrtC1 reqC1 (by decide) (by decide)⟩

/-- C2: with an empty allow-list every request is forwarded to the
underlying transport (the outbound call happens) and no denial occurs,
regardless of the claimed address. -/
theorem C2_empty_allowlist_forwards
    (t : Request → Except String Response) (req : Request) :
    Event.outboundCall ∈ (LoggingRoundTripper.RoundTrip ⟨t, []⟩ req).2 ∧
    ∀ ip, Event.deny ip ∉ (LoggingRoundTripper.RoundTrip ⟨t, []⟩ req).2 := by
  unfold LoggingRoundTripper.RoundTrip
  cases h : t req <;> simp [h]

/-- C3: the claimed caller address is exactly the first entry of the
`X-Forwarded-For` value split on comma-space (empty chain gives the
empty address), membership is exact string equality on that first entry
only (the denial event fires exactly when the allow-list is non-empty
and lacks that first entry), and `"1.2.3.4, 5.6.7.8"` against the
allow-list `["1.2.3.4"]` is allowed. -/
theorem C3_first_entry_exact_equality :
    (∀ l e, contains l e = true ↔ e ∈ l)
    ∧ remoteIP "" = ""
    ∧ (∀ lrt : LoggingRoundTripper, ∀ req : Request,
        ((lrt.RoundTrip req).2.map Event.kind).contains EKind.deny =
          (decide (0 < lrt.limit.length) &&
           !contains lrt.limit (remoteIP (headerGet req.header FORWARDED_FOR_HEADER))))
    ∧ (∀ t : Request → Except String Response,
        Event.outboundCall ∈ (LoggingRoundTripper.RoundTrip ⟨t, ["1.2.3.4"]⟩ reqC3).2) := by
  refine ⟨contains_iff_mem, by decide, ?_, ?_⟩
  · intro lrt req
    unfold LoggingRoundTripper.RoundTrip
    cases hc : (decide (0 < lrt.limit.length) &&
        !contains lrt.limit (remoteIP (headerGet req.header FORWARDED_FOR_HEADER)))
    · simp [hc]
      cases h : lrt.transport req <;> simp [Event.kind] <;> decide
    · simp [hc, Event.kind]
      decide
  · intro t
    unfold LoggingRoundTripper.RoundTrip
    have hcontains : contains ["1.2.3.4"]
        (remoteIP (headerGet reqC3.header FORWARDED_FOR_HEADER)) = true := by decide
    cases h : t reqC3 <;> simp [h, hcontains]

/-- C9: when the `X-Forwarded-For` value uses a comma without a trailing
space, the split on comma-space leaves the whole string as the claimed
address, so any non-empty allow-list of comma-free (single-address)
entries denies the request, even when the leftmost address is on the
list. -/
theorem C9_comma_without_space_denies
    (ff : String) (l : List String) (t : Request → Except String Response) (req : Request)
    (hh : headerGet req.header FORWARDED_FOR_HEADER = ff)
    (hsplit : goSplit ff ", " = [ff])
    (hcomma : ff.toList.contains ',' = true)
    (hl : l ≠ [])
    (hfree : ∀ e ∈ l, e.toList.contains ',' = false) :
    (LoggingRoundTripper.RoundTrip ⟨t, l⟩ req).1 =
      .ok { statusCode := 403, header := [], body := freshStream "Forbidden" } ∧
    Event.outboundCall ∉ (LoggingRoundTripper.RoundTrip ⟨t, l⟩ req).2 := by
  have hip : remoteIP (headerGet req.header FORWARDED_FOR_HEADER) = ff := by
    rw [hh]; unfold remoteIP; rw [hsplit]; rfl
  have hnc : contains l ff = false := by
    cases hcf : contains l ff
    · rfl
    · exfalso
      have hm : ff ∈ l := (contains_iff_mem l ff).mp hcf
      have := hfree ff hm
      rw [hcomma] at this
      exact absurd this (by simp)
  exact roundTrip_denied_of ⟨t, l⟩ req hl (by rw [hip]; exact hnc)

theorem C9_witness :
    headerGet reqC9.header FORWARDED_FOR_HEADER = "1.2.3.4,5.6.7.8" ∧
    goSplit "1.2.3.4,5.6.7.8" ", " = ["1.2.3.4,5.6.7.8"] ∧
    ("1.2.3.4,5.6.7.8").toList.contains ',' = true ∧
    ["1.2.3.4"] ≠ ([] : List String) ∧
    (∀ e ∈ ["1.2.3.4"], e.toList.contains ',' = false) ∧
    ((LoggingRoundTripper.RoundTrip ⟨tRefused, ["1.2.3.4"]⟩ reqC9).1 =
       .ok { statusCode := 403, header := [], body := freshStream "Forbidden" } ∧
     Event.outboundCall ∉ (LoggingRoundTripper.RoundTrip ⟨tRefused, ["1.2.3.4"]⟩ reqC9).2) :=
  ⟨by decide, by decide, by decide, by decide, by decide,
   C9_comma_without_space_denies "1.2.3.4,5.6.7.8" ["1.2.3.4"] tRefused reqC9
     (by decide) (by decide) (by decide) (by decide) (by decide)⟩

/-- C4: the bytes of a buffered request body handed to the outbound call
equal the bytes read for logging, restored as a fresh stream at position
zero; and on a successful upstream response, the body delivered to the
caller is a fresh stream over exactly the bytes read for the response
log. -/
theorem C4_body_bytes_roundtrip :
    (∀ env req b req' tr, req.body = some b →
        director env req = (.ok req', tr) →
        req'.body = some (freshStream ((b.readAll).1)) ∧
        Event.logRequest (headerGet req.header FORWARDED_FOR_HEADER)
          (headerGet req.header CF_FORWARDED_URL_HEADER)
          (headerGet req.header CF_PROXY_SIGNATURE_HEADER) ((b.readAll).1) ∈ tr)
    ∧ (∀ lrt : LoggingRoundTripper, ∀ req res, lrt.transport req = .ok res →
        (decide (0 < lrt.limit.length) &&
         !contains lrt.limit (remoteIP (headerGet req.header FORWARDED_FOR_HEADER))) = false →
        (lrt.RoundTrip req).1 = .ok { res with body := freshStream ((res.body.readAll).1) } ∧
        Event.logResponse res.header ((res.body.readAll).1) ∈ (lrt.RoundTrip req).2) := by
  constructor
  · intro env req b req' tr hb hd
    obtain ⟨evs, u, _, _, _, _, _, _, hbody, hlog⟩ := director_ok_inv env req req' tr hd
    exact ⟨hbody b hb, hlog b hb⟩
  · intro lrt req res ht hc
    rw [roundTrip_allowed_ok lrt req res ht hc]
    exact ⟨rfl, by simp⟩

theorem C4_witness :
    reqBody.body = some (freshStream "payload") ∧
    director envNoSleep reqBody = (.ok reqBodyDirected, trBody) ∧
    (reqBodyDirected.body = some (freshStream (((freshStream "payload").readAll).1)) ∧
     Event.logRequest (headerGet reqBody.header FORWARDED_FOR_HEADER)
       (headerGet reqBody.header CF_FORWARDED_URL_HEADER)
       (headerGet reqBody.header CF_PROXY_SIGNATURE_HEADER)
       (((freshStream "payload").readAll).1) ∈ trBody) ∧
    lrtOpen.transport reqBodyDirected = .ok upstreamRes ∧
    (decide (0 < lrtOpen.limit.length) &&
     !contains lrtOpen.limit
       (remoteIP (headerGet reqBodyDirected.header FORWARDED_FOR_HEADER))) = false ∧
    ((lrtOpen.RoundTrip reqBodyDirected).1 =
       .ok { upstreamRes with body := freshStream ((upstreamRes.body.readAll).1) } ∧
     Event.logResponse upstreamRes.header ((upstreamRes.body.readAll).1) ∈
       (lrtOpen.RoundTrip reqBodyDirected).2) :=
  ⟨by decide, by decide,
   C4_body_bytes_roundtrip.1 envNoSleep reqBody (freshStream "payload") reqBodyDirected trBody
     (by decide) (by decide),
   by decide, by decide,
   C4_body_bytes_roundtrip.2 lrtOpen reqBodyDirected upstreamRes (by decide) (by decide)⟩

/-- C5: the director replaces only the URL and host (with the parsed
`X-Cf-Forwarded-Url`), keeping method and headers unchanged; on allow
with a successful upstream response, status and headers pass through to
the caller unchanged. -/
theorem C5_only_url_and_host_replaced :
    (∀ env req req' tr, director env req = (.ok req', tr) →
        req'.method = req.method ∧ req'.header = req.header ∧
        ∃ u, parseURL (headerGet req.header CF_FORWARDED_URL_HEADER) = .ok u ∧
          req'.url = u ∧ req'.host = u.host)
    ∧ (∀ lrt : LoggingRoundTripper, ∀ req res, lrt.transport req = .ok res →
        (decide (0 < lrt.limit.length) &&
         !contains lrt.limit (remoteIP (headerGet req.header FORWARDED_FOR_HEADER))) = false →
        ∃ out, (lrt.RoundTrip req).1 = .ok out ∧
          out.statusCode = res.statusCode ∧ out.header = res.header) := by
  constructor
  · intro env req req' tr hd
    obtain ⟨evs, u, _, hp, hm, hh, hu, hho, _, _⟩ := director_ok_inv env req req' tr hd
    exact ⟨hm, hh, u, hp, hu, hho⟩
  · intro lrt req res ht hc
    rw [roundTrip_allowed_ok lrt req res ht hc]
    exact ⟨_, rfl, rfl, rfl⟩

theorem C5_witness :
    director envNoSleep reqBody = (.ok reqBodyDirected, trBody) ∧
    (reqBodyDirected.method = reqBody.method ∧ reqBodyDirected.header = reqBody.header ∧
     ∃ u, parseURL (headerGet reqBody.header CF_FORWARDED_URL_HEADER) = .ok u ∧
       reqBodyDirected.url = u ∧ reqBodyDirected.host = u.host) ∧
    lrtOpen.transport reqBodyDirected = .ok upstreamRes ∧
    (decide (0 < lrtOpen.limit.length) &&
     !contains lrtOpen.limit
       (remoteIP (headerGet reqBodyDirected.header FORWARDED_FOR_HEADER))) = false ∧
    (∃ out, (lrtOpen.RoundTrip reqBodyDirected).1 = .ok out ∧
       out.statusCode = upstreamRes.statusCode ∧ out.header = upstreamRes.header) :=
  ⟨by decide,
   C5_only_url_and_host_replaced.1 envNoSleep reqBody reqBodyDirected trBody (by decide),
   by decide, by decide,
   C5_only_url_and_host_replaced.2 lrtOpen reqBodyDirected upstreamRes (by decide) (by decide)⟩

/-- C6: when the `X-Cf-Forwarded-Url` value fails to parse (and the
delay configuration itself is accepted), the cycle aborts with the
URL-parse fatal error and no outbound call occurs. -/
theorem C6_bad_url_fatal_no_outbound
    (lrt : LoggingRoundTripper) (env : Env) (req : Request) (e : String) (evs : List Event)
    (hs : sleep env = .ok evs)
    (hp : parseURL (headerGet req.header CF_FORWARDED_URL_HEADER) = .error e) :
    (proxyCycle lrt env req).1 = .error (.urlParseError e) ∧
    Event.outboundCall ∉ (proxyCycle lrt env req).2 := by
  simp only [proxyCycle, director]
  rw [hs, hp]
  cases hb : req.body with
  | none =>
    refine ⟨rfl, ?_⟩
    rcases sleep_ok_cases env evs hs with rfl | ⟨n, rfl⟩ <;> simp
  | some b0 =>
    refine ⟨rfl, ?_⟩
    rcases sleep_ok_cases env evs hs with rfl | ⟨n, rfl⟩ <;> simp

theorem C6_witness :
    sleep envNoSleep = .ok [] ∧
    parseURL (headerGet reqBadURL.header CF_FORWARDED_URL_HEADER) =
      .error "invalid URL escape" ∧
    ((proxyCycle lrtRefusedOpen envNoSleep reqBadURL).1 =
       .error (.urlParseError "invalid URL escape") ∧
     Event.outboundCall ∉ (proxyCycle lrtRefusedOpen envNoSleep reqBadURL).2) :=
  ⟨by decide, by decide,
   C6_bad_url_fatal_no_outbound lrtRefusedOpen envNoSleep reqBadURL "invalid URL escape" []
     (by decide) (by decide)⟩

/-- C7 counterexample: with `ROUTE_SERVICE_SLEEP_MILLI` set to the
unparsable value "abc", the core's own director fails on the delay
configuration while processing a request — the parse is not confined to
a startup-time collaborator. -/
theorem C7_counterexample_core_fails_on_bad_delay :
    (director { routeServiceSleepMilli := "abc" } reqPlain).1 =
      .error (.sleepError "invalid syntax") := by decide

/-- C7 (amended): the core itself reads and parses the delay
configuration during every request; an unparsable value makes the
director fail for that request (process-fatal in the original), while a
negative value parses successfully and causes no failure. -/
theorem C7_amended_delay_parsed_in_request_path
    (env : Env) (req : Request) (e : String)
    (hne : env.routeServiceSleepMilli ≠ "")
    (hp : goParseInt env.routeServiceSleepMilli = .error e) :
    (director env req).1 = .error (.sleepError e) ∧
    sleep { routeServiceSleepMilli := "-50" } = .ok [Event.delay (-50)] := by
  constructor
  · have hs : sleep env = .error e := by simp [sleep, hne, hp]
    simp only [director]
    rw [hs]
  · decide

theorem C7_witness :
    ({ routeServiceSleepMilli := "abc" } : Env).routeServiceSleepMilli ≠ "" ∧
    goParseInt ({ routeServiceSleepMilli := "abc" } : Env).routeServiceSleepMilli =
      .error "invalid syntax" ∧
    ((director { routeServiceSleepMilli := "abc" } reqPlain).1 =
       .error (.sleepError "invalid syntax") ∧
     sleep { routeServiceSleepMilli := "-50" } = .ok [Event.delay (-50)]) :=
  ⟨by decide, by decide,
   C7_amended_delay_parsed_in_request_path ⟨"abc"⟩ reqPlain "invalid syntax"
     (by decide) (by decide)⟩

/-- C8: in every cycle's trace, the request (metadata and body) log
comes before the URL rewrite and before the delay; the delay comes
before the outbound call; the decision (the forwarding log on allow)
comes before the outbound call; and a denial excludes any outbound
call. -/
theorem C8_cycle_event_ordering (lrt : LoggingRoundTripper) (env : Env) (req : Request) :
    beforeIn EKind.logRequest EKind.rewrite (cycleKinds lrt env req) = true ∧
    beforeIn EKind.logRequest EKind.delay (cycleKinds lrt env req) = true ∧
    beforeWhenBoth EKind.delay EKind.outboundCall (cycleKinds lrt env req) = true ∧
    beforeIn EKind.forwarding EKind.outboundCall (cycleKinds lrt env req) = true ∧
    (!((cycleKinds lrt env req).contains EKind.deny &&
       (cycleKinds lrt env req).contains EKind.outboundCall)) = true := by
  have h := cycleKinds_cases lrt env req
  simp only [List.mem_cons, List.not_mem_nil, or_false] at h
  rcases h with h | h | h | h | h | h | h | h <;> rw [h] <;> decide

/-- C10: an absent or empty `X-Cf-Forwarded-Url` parses successfully as
the empty relative URL, so the request is not rejected as malformed: the
director succeeds, targets the empty URL, and the cycle hands the
directed request to the transport stage. -/
theorem C10_empty_url_parses_and_reaches_transport
    (lrt : LoggingRoundTripper) (env : Env) (req : Request)
    (hsl : env.routeServiceSleepMilli = "")
    (hu : headerGet req.header CF_FORWARDED_URL_HEADER = "") :
    parseURL "" = .ok ⟨"", "", "", ""⟩ ∧
    ∃ req' tr, director env req = (.ok req', tr) ∧
      req'.url = ⟨"", "", "", ""⟩ ∧ req'.host = "" ∧
      proxyCycle lrt env req =
        (.ok (lrt.RoundTrip req').1, tr ++ (lrt.RoundTrip req').2) := by
  have hs : sleep env = .ok [] := by simp [sleep, hsl]
  have hp : parseURL (headerGet req.header CF_FORWARDED_URL_HEADER) = .ok ⟨"", "", "", ""⟩ := by
    rw [hu]; decide
  obtain ⟨req', tr, hd, _, _, hurl, hhost, _, _, _⟩ :=
    director_ok_of env req [] ⟨"", "", "", ""⟩ hs hp
  refine ⟨by decide, req', tr, hd, hurl, ?_, ?_⟩
  · rw [hhost]
  · unfold proxyCycle
    rw [hd]

theorem C10_witness :
    envNoSleep.routeServiceSleepMilli = "" ∧
    headerGet reqPlain.header CF_FORWARDED_URL_HEADER = "" ∧
    (parseURL "" = .ok ⟨"", "", "", ""⟩ ∧
     ∃ req' tr, director envNoSleep reqPlain = (.ok req', tr) ∧
       req'.url = ⟨"", "", "", ""⟩ ∧ req'.host = "" ∧
       proxyCycle lrtRefusedOpen envNoSleep reqPlain =
         (.ok (lrtRefusedOpen.RoundTrip req').1,
          tr ++ (lrtRefusedOpen.RoundTrip req').2)) :=
  ⟨by decide, by decide,
   C10_empty_url_parses_and_reaches_transport lrtRefusedOpen envNoSleep reqPlain
     (by decide) (by decide)⟩

end RouteService
